import Mathlib

/-!
Shallow embedding of the worktree lifecycle orchestration engine
(`worktree_flow/core/state.py`, `validation.py`, `hooks.py`, `config.py`).

The Python code reads two small text files (the status record
`worktree-status.toml` and the project config `.agents/.worktree-config.toml`)
and runs external processes via `subprocess.run`.  The embedding makes the
world explicit in an `Env`:

* the status record is its parsed form, `Option KVMap` (`none` = file absent),
  as `parse_toml_value` exposes it to the engine;
* `config` / `vconfig` are the dictionaries `get_config` /
  `get_validation_config` return (the line-level parsing in
  `worktree_flow/lib/toml_utils.py` is not among the sources and is abstracted
  behind these parsed maps);
* every `subprocess.run` is an oracle field of `Env`, so one run of the engine
  is a pure function of the environment.  Each invocation is also recorded in
  an `ExtCall` trace carrying the timeout the code passed (or `none` when the
  code passes no `timeout=` argument to `subprocess.run`).

A Python function that can raise to its caller is embedded with
`Except String` (`.error` = an uncaught exception); the resulting status
record is returned alongside, since an exception leaves already-performed
writes in place.
-/

namespace WorktreeFlow

/-- A flat `key = value` document or dictionary, in line order. -/
abbrev KVMap := List (String × String)

/-- Dictionary read: the first binding of `k`, as `dict.get(k)` /
`parse_toml_value(content, k)` expose it. -/
def kvLookup (m : KVMap) (k : String) : Option String :=
  (m.find? (fun p => p.1 == k)).map (·.2)

/-- `dict.get(k, d)`. -/
def kvGetD (m : KVMap) (k d : String) : String := (kvLookup m k).getD d

/-- Modelled from the spec: one field write of `update_toml_fields`
(`worktree_flow/lib/toml_utils.py`, not among the sources): "existing keys are
only ever overwritten with a newer value for the same transition, never
deleted" — an existing `key = value` line is overwritten in place, a new key
is appended.  (`insert_first` only reorders lines in the file; line order
carries no meaning for the engine, which reads single keys.) -/
def kvUpdate : KVMap → String → String → KVMap
  | [], k, v => [(k, v)]
  | (k', v') :: rest, k, v =>
    if k' = k then (k, v) :: rest else (k', v') :: kvUpdate rest k v

/-- Modelled from the spec: `update_toml_fields` applied to a dict of updates,
in order. -/
def kvUpdateMany (m : KVMap) (updates : List (String × String)) : KVMap :=
  updates.foldl (fun acc p => kvUpdate acc p.1 p.2) m

/-- Reading a key of the status record (absent file reads as absent key). -/
def statusLookup : Option KVMap → String → Option String
  | none, _ => none
  | some m, k => kvLookup m k

/-- Python `str.strip()` over the ASCII whitespace characters (computable by
list recursion, unlike `String.trim`). -/
def pyStrip (s : String) : String :=
  String.mk (((s.toList.dropWhile Char.isWhitespace).reverse.dropWhile
    Char.isWhitespace).reverse)

/-- Python `s.split("\n")[0]`: everything before the first newline. -/
def pyFirstLine (s : String) : String :=
  String.mk (s.toList.takeWhile (fun c => c ≠ '\n'))

/-- Python `s[:n]`: the first `n` characters. -/
def pyTake (s : String) (n : Nat) : String :=
  String.mk (s.toList.take n)

/-- Python `str.lower()` on ASCII letters. -/
def pyLower (s : String) : String :=
  String.mk (s.toList.map Char.toLower)

/-- `", ".join(parts)`. -/
def joinComma : List String → String
  | [] => ""
  | x :: rest => rest.foldl (fun a y => a ++ ", " ++ y) x

/-- Python truthiness of an optional string argument (`if not approval:` is
taken both by `None` and by the empty string). -/
def strOptTruthy : Option String → Bool
  | none => false
  | some s => s ≠ ""

/-- `len` of an optional string, counting a missing string as length 0. -/
def strOptLen : Option String → Nat
  | none => 0
  | some s => s.length

/-- `str(x)` for `x : str | None` as an f-string renders it. -/
def pyStrOfOpt : Option String → String
  | none => "None"
  | some s => s

/-- Digit run as Python `int()` accepts it after the first character: single
underscores may stand between digits only. -/
def pyDigitsRest : List Char → Bool
  | [] => true
  | '_' :: c :: cs => c.isDigit && pyDigitsRest cs
  | c :: cs => c.isDigit && pyDigitsRest cs

/-- Nonempty digit run, underscores between digits allowed. -/
def pyDigits : List Char → Bool
  | [] => false
  | c :: cs => c.isDigit && pyDigitsRest cs

/-- Decimal value of a digit run, skipping underscores. -/
def digitsVal (cs : List Char) : Nat :=
  cs.foldl (fun a c => if c.isDigit then a * 10 + (c.toNat - 48) else a) 0

/-- Python `int(s)` on an ASCII decimal string: surrounding whitespace
stripped, an optional sign, then digits (underscores between digits allowed).
`none` models the `ValueError` Python raises on anything else. -/
def parsePyInt (s : String) : Option Int :=
  let cs := (pyStrip s).toList
  match cs with
  | '+' :: rest => if pyDigits rest then some (digitsVal rest : Int) else none
  | '-' :: rest => if pyDigits rest then some (-(digitsVal rest : Int)) else none
  | _ => if pyDigits cs then some (digitsVal cs : Int) else none

/-- The message of the `ValueError` that `int()` raises on a malformed
literal. -/
def pyIntErrorMsg (s : String) : String :=
  "ValueError: invalid literal for int() with base 10: " ++ s

/-- What one `subprocess.run` of a validation command comes back as: the
completed process, a `TimeoutExpired`, or any other exception. -/
inductive CmdOutcome
  | completed (returncode : Int) (stdout stderr : String)
  | timedOut
  | raised (msg : String)

/-- What one `subprocess.run(["uv", "run", hook])` comes back as: the
completed process, `TimeoutExpired`, `FileNotFoundError` (no `uv`), or any
other exception. -/
inductive HookOutcome
  | completed (returncode : Int) (stdout stderr : String)
  | timedOut
  | uvMissing
  | raised (msg : String)

/-- Which call site of the engine invoked an external command. -/
inductive CallKind
  | validation
  | phaseScript
  | hook
  deriving DecidableEq, Repr

/-- One external command as the engine started it: the command and the
`timeout=` argument handed to `subprocess.run` (`none` when the call passes
no timeout). -/
structure ExtCall where
  kind : CallKind
  cmd : String
  timeoutSec : Option Int
  deriving DecidableEq, Repr

/-- The world one engine invocation runs against. -/
structure Env where
  /-- Parsed `worktree-status.toml`; `none` when the file does not exist. -/
  status : Option KVMap
  /-- `get_config`: every `key = value` line of `.worktree-config.toml`,
  section headers ignored. -/
  config : KVMap
  /-- `get_validation_config`: the `key = value` lines of the
  `[validation]` section. -/
  vconfig : KVMap
  /-- Oracle for `subprocess.run` of a validation command. -/
  runCmd : String → CmdOutcome
  /-- Oracle for the exit code of a phase script (`subprocess.run(cmd,
  shell=True, cwd=root)`). -/
  scriptExit : String → Int
  /-- Whether the resolved hook script path exists on disk. -/
  hookExists : String → Bool
  /-- Oracle for `subprocess.run(["uv", "run", path], ...)` of a hook. -/
  hookRun : String → HookOutcome
  /-- The formatted elapsed seconds (`f"{duration:.1f}"`) of a validation
  command; wall-clock time abstracted per command. -/
  elapsed : String → String
  /-- `datetime.now(UTC).isoformat()`. -/
  now : String
  /-- `_get_repo_root()`: the git toplevel, or the current directory. -/
  repoRoot : String

/-! ## Validation pipeline (`worktree_flow/core/validation.py`) -/

/-- `DEFAULT_VALIDATION_TIMEOUT` (`config.py`). -/
def DEFAULT_VALIDATION_TIMEOUT : Int := 300

/-- `ValidationResult` (the float `duration_seconds` field is abstracted into
the message through `Env.elapsed`). -/
structure ValidationResult where
  name : String
  passed : Bool
  message : String
  deriving DecidableEq, Repr

/-- `ValidationSummary`. -/
structure ValidationSummary where
  all_passed : Bool
  results : List ValidationResult
  summary_text : String
  deriving DecidableEq, Repr

/-- `_format_validation_message`. -/
def format_validation_message (returncode : Int) (stdout stderr durationStr : String) :
    String :=
  if returncode = 0 then
    "passed in " ++ durationStr ++ "s"
  else
    let error_output := if pyStrip stderr ≠ "" then pyStrip stderr else pyStrip stdout
    let first_line :=
      if error_output ≠ "" then pyTake (pyFirstLine error_output) 100 else ""
    "failed (exit " ++ toString returncode ++ "): " ++ first_line

/-- `run_single_validation`: one command under the configured timeout; a
`TimeoutExpired` and any other exception are caught and recorded as a failed
result. -/
def run_single_validation (env : Env) (name command : String) (timeout : Int) :
    ValidationResult :=
  match env.runCmd command with
  | .completed rc out err =>
    { name := name, passed := rc = 0
      message := format_validation_message rc out err (env.elapsed command) }
  | .timedOut =>
    { name := name, passed := false
      message := "timed out after " ++ toString timeout ++ "s" }
  | .raised e =>
    { name := name, passed := false, message := "error: " ++ e }

/-- `run_validations`, with the trace of the validation commands it started.
`.error` models the uncaught `ValueError` of
`int(config.get("timeout", str(DEFAULT_VALIDATION_TIMEOUT)))` on a malformed
timeout value — it is raised before any command runs. -/
def run_validations (env : Env) (simplified : Bool) :
    Except String (ValidationSummary × List ExtCall) :=
  let config := env.vconfig
  match parsePyInt (kvGetD config "timeout" (toString DEFAULT_VALIDATION_TIMEOUT)) with
  | none => .error (pyIntErrorMsg (kvGetD config "timeout" (toString DEFAULT_VALIDATION_TIMEOUT)))
  | some timeout =>
    let require_simplified := pyLower (kvGetD config "require_simplified" "false") == "true"
    let simpResults : List ValidationResult :=
      if require_simplified then
        [{ name := "code-simplifier", passed := simplified
           message :=
             if simplified then "--simplified flag provided"
             else "--simplified flag required (run code-simplifier first)" }]
      else []
    let validation_commands : List (String × String) :=
      [("typecheck", kvGetD config "typecheck_command" ""),
       ("lint", kvGetD config "lint_command" ""),
       ("test", kvGetD config "test_command" "")]
    let configured := validation_commands.filter (fun p => p.2 ≠ "")
    let results := simpResults ++ configured.map (fun p => run_single_validation env p.1 p.2 timeout)
    let calls : List ExtCall :=
      configured.map (fun p => { kind := .validation, cmd := p.2, timeoutSec := some timeout })
    let all_passed := results.all (·.passed)
    let summary_text :=
      joinComma (results.map (fun r => r.name ++ ": " ++ if r.passed then "pass" else "FAIL"))
    .ok ({ all_passed := all_passed, results := results, summary_text := summary_text }, calls)

/-! ## Hook execution engine (`worktree_flow/core/hooks.py`) -/

/-- `HOOK_POINTS`. -/
def HOOK_POINTS : List String :=
  ["post_init", "pre_validate", "pre_review", "pre_merge", "pre_cleanup"]

/-- `DEFAULT_HOOK_PATHS`. -/
def DEFAULT_HOOK_PATHS : String → Option String
  | "post_init" => some "skills/worktree-flow/lifecycle/post_init.py"
  | "pre_validate" => some "skills/worktree-flow/lifecycle/pre_validate.py"
  | "pre_review" => some "skills/worktree-flow/lifecycle/pre_review.py"
  | "pre_merge" => some "skills/worktree-flow/lifecycle/pre_merge.py"
  | "pre_cleanup" => some "skills/worktree-flow/lifecycle/pre_cleanup.py"
  | _ => none

/-- `PHASE_HOOKS`. -/
def PHASE_HOOKS : String → List String
  | "initialized" => ["post_init"]
  | "validated" => ["pre_validate"]
  | "human-manual-review" => ["pre_review"]
  | "merged" => ["pre_merge"]
  | "cleaned" => ["pre_cleanup"]
  | _ => []

/-- `get_hook_paths` restricted to one hook point: the configured path when
the flat config has the key, else the built-in default. -/
def get_hook_paths (env : Env) (hook_point : String) : Option String :=
  match kvLookup env.config hook_point with
  | some v => some v
  | none => DEFAULT_HOOK_PATHS hook_point

/-- `get_hook_path`: resolve the script relative to the repo root; `none`
when no path is configured, the path is empty, or the script does not exist
on disk.  (`Path /` is modelled as string concatenation with a slash.) -/
def get_hook_path (env : Env) (hook_point : String) : Option String :=
  match get_hook_paths env hook_point with
  | none => none
  | some relative_path =>
    if relative_path = "" then none
    else
      let hook_path := env.repoRoot ++ "/" ++ relative_path
      if env.hookExists hook_path then some hook_path else none

/-- `run_lifecycle_hook`, with its trace: every outcome — script missing,
non-zero exit, timeout, missing `uv`, any exception — comes back as
`(true, message)`. -/
def run_lifecycle_hook (env : Env) (hook_point : String) (timeout : Int := 60) :
    (Bool × String) × List ExtCall :=
  match get_hook_path env hook_point with
  | none => ((true, "Hook " ++ hook_point ++ " skipped (script not found)"), [])
  | some hook_path =>
    let call : ExtCall := { kind := .hook, cmd := "uv run " ++ hook_path, timeoutSec := some timeout }
    match env.hookRun hook_path with
    | .completed rc _ err =>
      if rc = 0 then
        ((true, "Hook " ++ hook_point ++ " completed"), [call])
      else
        let stderr := if err ≠ "" then pyTake (pyStrip err) 200 else "No error output"
        ((true, "Hook " ++ hook_point ++ " failed (non-blocking): " ++ stderr), [call])
    | .timedOut =>
      ((true, "Hook " ++ hook_point ++ " timed out after " ++ toString timeout ++ "s (non-blocking)"), [call])
    | .uvMissing =>
      ((true, "Hook " ++ hook_point ++ " skipped (uv not found)"), [call])
    | .raised e =>
      ((true, "Hook " ++ hook_point ++ " error (non-blocking): " ++ e), [call])

/-- `run_phase_hooks`: every hook bound to the phase, sequentially, each with
the default 60 second timeout. -/
def run_phase_hooks (env : Env) (phase : String) :
    List (String × Bool × String) × List ExtCall :=
  let hook_points := PHASE_HOOKS phase
  (hook_points.map (fun hp => (hp, (run_lifecycle_hook env hp).1)),
   hook_points.flatMap (fun hp => (run_lifecycle_hook env hp).2))

/-! ## Phase state machine (`worktree_flow/core/state.py`) -/

/-- `MIN_APPROVAL_LENGTH`. -/
def MIN_APPROVAL_LENGTH : Nat := 10

/-- `MIN_COMMIT_MESSAGE_LENGTH`. -/
def MIN_COMMIT_MESSAGE_LENGTH : Nat := 10

/-- `PHASES`. -/
def PHASES : List String :=
  ["created", "initialized", "validated", "implementing", "human-manual-review",
   "merged", "cleaned"]

/-- `VALID_TRANSITIONS.get(from_phase, [])`: the successor set of a phase (the
dict has no entry for `"cleaned"` or for an unknown phase, so `.get` yields
the empty list there). -/
def VALID_TRANSITIONS : Option String → List String
  | none => ["created"]
  | some "created" => ["initialized"]
  | some "initialized" => ["validated"]
  | some "validated" => ["implementing"]
  | some "implementing" => ["human-manual-review"]
  | some "human-manual-review" => ["merged"]
  | some "merged" => ["cleaned"]
  | some _ => []

/-- `PHASE_SCRIPTS.get(phase)`. -/
def PHASE_SCRIPTS : String → Option String
  | "initialized" => some "setup_script"
  | "validated" => some "validation_command"
  | "human-manual-review" => some "review_script"
  | "cleaned" => some "cleanup_script"
  | _ => none

/-- `PHASES_REQUIRING_APPROVAL`. -/
def PHASES_REQUIRING_APPROVAL : List String := ["human-manual-review"]

/-- The message of `_validate_approval` for a missing approval. -/
def approvalMissingMsg (phase : String) : String :=
  "Phase '" ++ phase ++ "' requires explicit user approval.\n" ++
  "Use: transition " ++ phase ++ " --approval \"<user's approval response>\" " ++
  "--commit-message \"<message>\"\n" ++
  "The approval must contain the user's actual response granting permission."

/-- The message of `_validate_approval` for a too-short approval. -/
def approvalTooShortMsg : String :=
  "Approval response too short (min 10 chars). " ++
  "Provide the user's actual approval statement.\n" ++
  "Example: --approval \"User said: Yes, proceed with the commit\""

/-- The message of `_validate_approval` for a missing commit message. -/
def commitMissingMsg (phase : String) : String :=
  "Phase '" ++ phase ++ "' requires a commit message.\n" ++
  "Use: transition " ++ phase ++ " --approval \"...\" --commit-message \"<message>\""

/-- The message of `_validate_approval` for a too-short commit message. -/
def commitTooShortMsg : String :=
  "Commit message too short (min 10 chars). " ++
  "Provide a meaningful commit message.\n" ++
  "Example: --commit-message \"feat(lifecycle): add review approval requirement\""

/-- `_validate_approval`: both an approval of at least `MIN_APPROVAL_LENGTH`
characters and a commit message of at least `MIN_COMMIT_MESSAGE_LENGTH`
characters, checked in that order. -/
def validate_approval (approval commit_message : Option String) (phase : String) :
    Bool × String :=
  if ¬ strOptTruthy approval then
    (false, approvalMissingMsg phase)
  else if strOptLen approval < MIN_APPROVAL_LENGTH then
    (false, approvalTooShortMsg)
  else if ¬ strOptTruthy commit_message then
    (false, commitMissingMsg phase)
  else if strOptLen commit_message < MIN_COMMIT_MESSAGE_LENGTH then
    (false, commitTooShortMsg)
  else
    (true, "")

/-- `get_current_phase`: `current_phase` of the status file, or `none` when
the file or the key is absent. -/
def get_current_phase (env : Env) : Option String :=
  match env.status with
  | none => none
  | some kvs => kvLookup kvs "current_phase"

/-- `can_transition`. -/
def can_transition (from_phase : Option String) (to_phase : String) : Bool × String :=
  if to_phase ∉ PHASES then
    (false, "Unknown phase: " ++ to_phase ++ ". Valid phases: " ++ joinComma PHASES)
  else
    let valid_next := VALID_TRANSITIONS from_phase
    if to_phase ∉ valid_next then
      let current := match from_phase with
        | none => "none"
        | some s => if s = "" then "none" else s
      let valid :=
        let joined := joinComma valid_next
        if joined = "" then "none" else joined
      (false, "Cannot transition from '" ++ current ++ "' to '" ++ to_phase ++ "'. Valid: " ++ valid)
    else
      (true, "")

/-- `run_phase_script`, with its trace.  The phase script is started by
`subprocess.run(cmd, shell=True, cwd=root)` with no `timeout=` argument, so
its `ExtCall` carries `timeoutSec := none`. -/
def run_phase_script (env : Env) (phase : String)
    (simplified linted tested : Bool) : (Bool × String) × List ExtCall :=
  match PHASE_SCRIPTS phase with
  | none => ((true, ""), [])
  | some config_key =>
    let script := kvGetD env.config config_key ""
    if script = "" then ((true, ""), [])
    else
      let cmd :=
        if phase = "human-manual-review" then
          script ++ (if simplified then " --simplified" else "")
                 ++ (if linted then " --linted" else "")
                 ++ (if tested then " --tested" else "")
        else script
      let call : ExtCall := { kind := .phaseScript, cmd := cmd, timeoutSec := none }
      let rc := env.scriptExit cmd
      if rc ≠ 0 then
        ((false, "Script failed with exit code " ++ toString rc), [call])
      else
        ((true, "Script completed: " ++ script), [call])

/-- `_update_validation_status`: record the validation outcome in the status
file (a no-op when the file does not exist). -/
def update_validation_status (status : Option KVMap) (now : String)
    (summary : ValidationSummary) : Option KVMap :=
  match status with
  | none => none
  | some kvs =>
    some (kvUpdateMany kvs
      [("validation_passed", if summary.all_passed then "true" else "false"),
       ("validation_summary", summary.summary_text),
       ("last_validation_at", now)])

/-- The options of `do_transition`. -/
structure TransOptions where
  approval : Option String := none
  commit_message : Option String := none
  simplified : Bool := false
  linted : Bool := false
  tested : Bool := false
  validation_only : Bool := false

/-- What one `do_transition` call leaves behind: the status record after the
call, the external commands it started (in order), and its `(success,
message)` return — or `.error` for an exception that escaped to the
caller. -/
structure TransResult where
  status : Option KVMap
  calls : List ExtCall
  outcome : Except String (Bool × String)

/-- `do_transition`'s success message. -/
def transitionedMsg (to_phase : String) : String :=
  "Transitioned to '" ++ to_phase ++ "'"

/-- The tail of `do_transition` from the approval gate on: approval check,
phase script, status-file commit, then the (non-blocking) lifecycle hooks.
`status1` is the status record as it stands when this point is reached and
`vcalls` the validation commands already started. -/
def do_transition_commit (env : Env) (to_phase : String) (opts : TransOptions)
    (status1 : Option KVMap) (vcalls : List ExtCall) : TransResult :=
  let approvalCheck :=
    if to_phase ∈ PHASES_REQUIRING_APPROVAL then
      validate_approval opts.approval opts.commit_message to_phase
    else (true, "")
  if ¬ approvalCheck.1 then
    { status := status1, calls := vcalls, outcome := .ok (false, approvalCheck.2) }
  else
    let scriptRun := run_phase_script env to_phase opts.simplified opts.linted opts.tested
    if ¬ scriptRun.1.1 then
      { status := status1, calls := vcalls ++ scriptRun.2
        outcome := .ok (false, "Phase script failed: " ++ scriptRun.1.2) }
    else
      let timestamp := env.now
      let updates : List (String × String) :=
        [("current_phase", to_phase), (to_phase ++ "_at", timestamp)]
        ++ (if strOptTruthy opts.approval then
              [(to_phase ++ "_approval", opts.approval.getD "")] else [])
        ++ (if strOptTruthy opts.commit_message then
              [("commit_message", opts.commit_message.getD "")] else [])
      let newStatus : KVMap :=
        match status1 with
        | none => updates
        | some kvs => kvUpdateMany kvs updates
      { status := some newStatus
        calls := vcalls ++ scriptRun.2 ++ (run_phase_hooks env to_phase).2
        outcome := .ok (true, transitionedMsg to_phase) }

/-- `do_transition`. -/
def do_transition (env : Env) (to_phase : String) (opts : TransOptions) : TransResult :=
  let current := get_current_phase env
  if opts.validation_only then
    if to_phase ≠ "human-manual-review" then
      { status := env.status, calls := []
        outcome := .ok (false, "--validation-only only applies to human-manual-review transition") }
    else if current ≠ some "implementing" then
      { status := env.status, calls := []
        outcome := .ok (false, "--validation-only requires implementing phase, currently: "
          ++ pyStrOfOpt current) }
    else
      match run_validations env opts.simplified with
      | .error e => { status := env.status, calls := [], outcome := .error e }
      | .ok (summary, vcalls) =>
        if summary.all_passed then
          { status := env.status, calls := vcalls
            outcome := .ok (true, "All validations passed: " ++ summary.summary_text) }
        else
          { status := env.status, calls := vcalls
            outcome := .ok (false, "Validation failed: " ++ summary.summary_text) }
  else
    let ct := can_transition current to_phase
    if ¬ ct.1 then
      { status := env.status, calls := [], outcome := .ok (false, ct.2) }
    else if to_phase = "human-manual-review" then
      match run_validations env opts.simplified with
      | .error e => { status := env.status, calls := [], outcome := .error e }
      | .ok (summary, vcalls) =>
        if ¬ summary.all_passed then
          { status := env.status, calls := vcalls
            outcome := .ok (false, "Pre-review validation failed: " ++ summary.summary_text
              ++ "\nFix the issues and try again.") }
        else
          do_transition_commit env to_phase opts
            (update_validation_status env.status env.now summary) vcalls
    else
      do_transition_commit env to_phase opts env.status []

/-- `env` with the hook world (script existence and hook processes)
replaced — used to state that hooks never influence a transition. -/
def envSetHooks (env : Env) (he : String → Bool) (hr : String → HookOutcome) : Env :=
  { env with hookExists := he, hookRun := hr }

/-! ## Concrete environments (for witnesses and counterexamples) -/

/-- A worktree in phase `implementing` whose three configured validation
commands all pass, with no hook scripts on disk. -/
def envPassing : Env where
  status := some [("current_phase", "implementing"), ("implementing_at", "T1")]
  config := []
  vconfig := [("typecheck_command", "mypy ."), ("lint_command", "ruff check"),
              ("test_command", "pytest")]
  runCmd := fun _ => .completed 0 "" ""
  scriptExit := fun _ => 0
  hookExists := fun _ => false
  hookRun := fun _ => .completed 0 "" ""
  elapsed := fun _ => "0.1"
  now := "T2"
  repoRoot := "/repo"

/-- The summary `run_validations` produces on `envPassing`. -/
def summaryPassing : ValidationSummary where
  all_passed := true
  results := [⟨"typecheck", true, "passed in 0.1s"⟩, ⟨"lint", true, "passed in 0.1s"⟩,
              ⟨"test", true, "passed in 0.1s"⟩]
  summary_text := "typecheck: pass, lint: pass, test: pass"

/-- The validation commands `run_validations` starts on `envPassing`. -/
def callsPassing : List ExtCall :=
  [⟨.validation, "mypy .", some 300⟩, ⟨.validation, "ruff check", some 300⟩,
   ⟨.validation, "pytest", some 300⟩]

/-- `envPassing` with one failing lint command as the only configured check. -/
def envLintFails : Env :=
  { envPassing with
    vconfig := [("lint_command", "ruff check")]
    runCmd := fun _ => .completed 1 "" "" }

/-- The summary `run_validations` produces on `envLintFails`. -/
def summaryLintFails : ValidationSummary where
  all_passed := false
  results := [⟨"lint", false, "failed (exit 1): "⟩]
  summary_text := "lint: FAIL"

/-- `envPassing` with a malformed `[validation] timeout` value. -/
def envBadTimeout : Env :=
  { envPassing with vconfig := [("timeout", "drei"), ("lint_command", "ruff check")] }

/-- A worktree in phase `created` with a configured setup script. -/
def envScript : Env :=
  { envPassing with
    status := some [("current_phase", "created"), ("created_at", "T0")]
    config := [("setup_script", "./setup.sh")] }

/-- `envPassing` with no configured validation commands at all. -/
def envNoChecks : Env :=
  { envPassing with vconfig := [] }

/-! ## Basic lemmas about the key/value store -/

theorem kvLookup_cons (pk pv : String) (rest : KVMap) (k : String) :
    kvLookup ((pk, pv) :: rest) k = if pk = k then some pv else kvLookup rest k := by
  by_cases h : pk = k <;> simp [kvLookup, List.find?_cons, h]

theorem kvLookup_kvUpdate_self (m : KVMap) (k v : String) :
    kvLookup (kvUpdate m k v) k = some v := by
  induction m with
  | nil => simp [kvUpdate, kvLookup_cons]
  | cons p rest ih =>
    obtain ⟨pk, pv⟩ := p
    by_cases h : pk = k
    · simp [kvUpdate, h, kvLookup_cons]
    · simp [kvUpdate, h, kvLookup_cons, ih]

theorem kvLookup_kvUpdate_ne (m : KVMap) (k v k' : String) (h : k' ≠ k) :
    kvLookup (kvUpdate m k v) k' = kvLookup m k' := by
  induction m with
  | nil => simp [kvUpdate, kvLookup, kvLookup_cons, Ne.symm h]
  | cons p rest ih =>
    obtain ⟨pk, pv⟩ := p
    by_cases hp : pk = k
    · subst hp
      simp [kvUpdate, kvLookup_cons, Ne.symm h]
    · simp [kvUpdate, hp, kvLookup_cons, ih]

theorem kvLookup_kvUpdateMany_not_mem (m : KVMap) (us : List (String × String))
    (k : String) (h : ∀ p ∈ us, p.1 ≠ k) :
    kvLookup (kvUpdateMany m us) k = kvLookup m k := by
  induction us generalizing m with
  | nil => rfl
  | cons u rest ih =>
    have hu : u.1 ≠ k := h u (by simp)
    calc kvLookup (kvUpdateMany (kvUpdate m u.1 u.2) rest) k
        = kvLookup (kvUpdate m u.1 u.2) k := ih _ (fun p hp => h p (by simp [hp]))
      _ = kvLookup m k := kvLookup_kvUpdate_ne m u.1 u.2 k (fun he => hu he.symm)

theorem kvLookup_kvUpdateMany_first (m : KVMap) (k v : String)
    (rest : List (String × String)) (h : ∀ p ∈ rest, p.1 ≠ k) :
    kvLookup (kvUpdateMany m ((k, v) :: rest)) k = some v := by
  show kvLookup (kvUpdateMany (kvUpdate m k v) rest) k = some v
  rw [kvLookup_kvUpdateMany_not_mem _ _ _ h, kvLookup_kvUpdate_self]

/-- `_update_validation_status` touches only its three validation keys. -/
theorem statusLookup_update_validation_status (status : Option KVMap)
    (now : String) (summary : ValidationSummary) (k : String)
    (h1 : k ≠ "validation_passed") (h2 : k ≠ "validation_summary")
    (h3 : k ≠ "last_validation_at") :
    statusLookup (update_validation_status status now summary) k = statusLookup status k := by
  cases status with
  | none => rfl
  | some kvs =>
    show kvLookup (kvUpdateMany kvs _) k = kvLookup kvs k
    apply kvLookup_kvUpdateMany_not_mem
    intro p hp
    simp only [List.mem_cons, List.not_mem_nil, or_false] at hp
    rcases hp with h | h | h <;> subst h <;> simp_all <;> intro hh <;>
      exact absurd hh.symm (by assumption)

/-! ## Lemmas about the validation pipeline -/

theorem run_single_validation_name (env : Env) (n c : String) (t : Int) :
    (run_single_validation env n c t).name = n := by
  unfold run_single_validation
  cases env.runCmd c <;> rfl

/-- A well-formed (or absent) timeout value means `run_validations` returns
instead of raising. -/
theorem run_validations_isOk (env : Env) (simplified : Bool) (t : Int)
    (h : parsePyInt (kvGetD env.vconfig "timeout" (toString DEFAULT_VALIDATION_TIMEOUT))
      = some t) :
    ∃ p, run_validations env simplified = .ok p := by
  unfold run_validations
  simp only [h]
  exact ⟨_, rfl⟩

/-- `run_validations` raises exactly when the timeout value does not parse. -/
theorem run_validations_error_iff (env : Env) (simplified : Bool) :
    (∃ e, run_validations env simplified = .error e) ↔
      parsePyInt (kvGetD env.vconfig "timeout" (toString DEFAULT_VALIDATION_TIMEOUT))
        = none := by
  cases h : parsePyInt (kvGetD env.vconfig "timeout" (toString DEFAULT_VALIDATION_TIMEOUT)) with
  | none => simp only [run_validations, h]; simp
  | some t => simp only [run_validations, h]; simp

/-! ## Claim theorems -/

/-- C8: `run_validations` returns a summary whose `all_passed` flag is the
conjunction of every recorded individual result, whose result list starts
with the `code-simplifier` check (present exactly when simplification is
required) followed by the configured commands in `typecheck`, `lint`, `test`
order with unconfigured (empty) commands skipped, and whose summary text
joins `name: pass|FAIL` pairs with `", "` in execution order. -/
theorem C8_run_validations_aggregate (env : Env) (simplified : Bool)
    (s : ValidationSummary) (cs : List ExtCall)
    (h : run_validations env simplified = .ok (s, cs)) :
    s.all_passed = s.results.all (·.passed) ∧
    s.summary_text =
      joinComma (s.results.map
        (fun r => r.name ++ ": " ++ if r.passed then "pass" else "FAIL")) ∧
    s.results.map (·.name) =
      (if pyLower (kvGetD env.vconfig "require_simplified" "false") = "true"
        then ["code-simplifier"] else [])
      ++ ([("typecheck", kvGetD env.vconfig "typecheck_command" ""),
           ("lint", kvGetD env.vconfig "lint_command" ""),
           ("test", kvGetD env.vconfig "test_command" "")].filter
            (fun p => p.2 ≠ "")).map (·.1) := by
  rcases ht : parsePyInt (kvGetD env.vconfig "timeout" (toString DEFAULT_VALIDATION_TIMEOUT))
    with _ | t
  · simp only [run_validations, ht] at h
    exact Except.noConfusion h
  · simp only [run_validations, ht] at h
    obtain ⟨hs, _⟩ := Prod.mk.injEq .. ▸ (Except.ok.injEq .. ▸ h)
    subst hs
    refine ⟨rfl, rfl, ?_⟩
    simp only [List.map_append, List.map_map]
    congr 1
    · split <;> simp_all
    · exact List.map_congr_left
        (fun p _ => run_single_validation_name env p.1 p.2 t)

/-- C8 witness: the aggregate facts at the concrete passing environment. -/
theorem C8_run_validations_aggregate_witness :
    summaryPassing.all_passed = summaryPassing.results.all (·.passed) ∧
    summaryPassing.summary_text =
      joinComma (summaryPassing.results.map
        (fun r => r.name ++ ": " ++ if r.passed then "pass" else "FAIL")) ∧
    summaryPassing.results.map (·.name) =
      (if pyLower (kvGetD envPassing.vconfig "require_simplified" "false") = "true"
        then ["code-simplifier"] else [])
      ++ ([("typecheck", kvGetD envPassing.vconfig "typecheck_command" ""),
           ("lint", kvGetD envPassing.vconfig "lint_command" ""),
           ("test", kvGetD envPassing.vconfig "test_command" "")].filter
            (fun p => p.2 ≠ "")).map (·.1) :=
  C8_run_validations_aggregate envPassing false summaryPassing callsPassing rfl

/-- C10: with no typecheck, lint or test command configured and
simplification not required, `run_validations` returns the empty summary —
no results, `all_passed = true`, empty summary text — provided the
configured timeout value is well-formed (a malformed one raises before any
check runs). -/
theorem C10_no_checks_vacuous_pass (env : Env) (simplified : Bool) (t : Int)
    (h1 : kvGetD env.vconfig "typecheck_command" "" = "")
    (h2 : kvGetD env.vconfig "lint_command" "" = "")
    (h3 : kvGetD env.vconfig "test_command" "" = "")
    (h4 : pyLower (kvGetD env.vconfig "require_simplified" "false") ≠ "true")
    (h5 : parsePyInt (kvGetD env.vconfig "timeout" (toString DEFAULT_VALIDATION_TIMEOUT))
      = some t) :
    run_validations env simplified =
      .ok ({ all_passed := true, results := [], summary_text := "" }, []) := by
  simp only [run_validations, h5, h1, h2, h3]
  simp [h4, joinComma]

/-- C10 witness: the empty-config environment. -/
theorem C10_no_checks_vacuous_pass_witness :
    run_validations envNoChecks false =
      .ok ({ all_passed := true, results := [], summary_text := "" }, []) :=
  C10_no_checks_vacuous_pass envNoChecks false 300 rfl rfl rfl (by decide) rfl

/-- An `Env` with its status field replaced by itself is itself. -/
theorem env_set_status_self (env : Env) : { env with status := env.status } = env := rfl

/-- C9: a transition whose `(from, to)` pair is not in the transition table
is rejected with no side effect — the status record is untouched, no
external command is started, the return is `(false, message)` — and, the
state being unchanged, an immediately repeated identical call returns the
very same result. -/
theorem C9_illegal_transition_rejected (env : Env) (toPhase : String) (opts : TransOptions)
    (h : (can_transition (get_current_phase env) toPhase).1 = false) :
    (do_transition env toPhase opts).status = env.status ∧
    (do_transition env toPhase opts).calls = [] ∧
    (∃ m, (do_transition env toPhase opts).outcome = .ok (false, m)) ∧
    do_transition { env with status := (do_transition env toPhase opts).status } toPhase opts
      = do_transition env toPhase opts := by
  have key : ∃ m, do_transition env toPhase opts =
      { status := env.status, calls := [], outcome := .ok (false, m) } := by
    by_cases hv : opts.validation_only
    · by_cases hto : toPhase = "human-manual-review"
      · subst hto
        by_cases hc : get_current_phase env = some "implementing"
        · rw [hc] at h
          exact absurd h (by decide)
        · exact ⟨"--validation-only requires implementing phase, currently: "
              ++ pyStrOfOpt (get_current_phase env), by simp [do_transition, hv, hc]⟩
      · exact ⟨"--validation-only only applies to human-manual-review transition",
          by simp [do_transition, hv, hto]⟩
    · refine ⟨(can_transition (get_current_phase env) toPhase).2, ?_⟩
      simp [do_transition, hv, h]
  obtain ⟨m, hm⟩ := key
  refine ⟨by rw [hm], by rw [hm], ⟨m, by rw [hm]⟩, ?_⟩
  have hself : ({ env with status := (do_transition env toPhase opts).status }) = env := by
    rw [hm]
  rw [hself]

/-- C9 witness: phase `created`, target `merged` — not a table edge. -/
theorem C9_illegal_transition_rejected_witness :
    (do_transition envScript "merged" {}).status = envScript.status ∧
    (do_transition envScript "merged" {}).calls = [] ∧
    (∃ m, (do_transition envScript "merged" {}).outcome = .ok (false, m)) ∧
    do_transition { envScript with status := (do_transition envScript "merged" {}).status }
      "merged" {} = do_transition envScript "merged" {} :=
  C9_illegal_transition_rejected envScript "merged" {} (by decide)

/-- C7: with `validation_only` set, `do_transition` never mutates the status
record; it fails unless the target is `human-manual-review` and the current
phase is `implementing`, and when both hold it returns the validation
pipeline's pass/fail outcome. -/
theorem C7_validation_only_mode (env : Env) (toPhase : String) (opts : TransOptions)
    (h : opts.validation_only = true) :
    (do_transition env toPhase opts).status = env.status ∧
    (toPhase ≠ "human-manual-review" →
      (do_transition env toPhase opts).outcome =
        .ok (false, "--validation-only only applies to human-manual-review transition")) ∧
    (toPhase = "human-manual-review" → get_current_phase env ≠ some "implementing" →
      (do_transition env toPhase opts).outcome =
        .ok (false, "--validation-only requires implementing phase, currently: "
          ++ pyStrOfOpt (get_current_phase env))) ∧
    (∀ s cs, toPhase = "human-manual-review" → get_current_phase env = some "implementing" →
      run_validations env opts.simplified = .ok (s, cs) →
      (do_transition env toPhase opts).outcome =
        .ok (s.all_passed,
          if s.all_passed then "All validations passed: " ++ s.summary_text
          else "Validation failed: " ++ s.summary_text)) := by
  refine ⟨?_, ?_, ?_, ?_⟩
  · by_cases hto : toPhase = "human-manual-review"
    · subst hto
      by_cases hc : get_current_phase env = some "implementing"
      · rcases hrv : run_validations env opts.simplified with e | ⟨s, cs⟩
        · simp [do_transition, h, hc, hrv]
        · by_cases hap : s.all_passed <;> simp [do_transition, h, hc, hrv, hap]
      · simp [do_transition, h, hc]
    · simp [do_transition, h, hto]
  · intro hto
    simp [do_transition, h, hto]
  · intro hto hc
    subst hto
    simp [do_transition, h, hc]
  · intro s cs hto hc hrv
    subst hto
    by_cases hap : s.all_passed <;> simp [do_transition, h, hc, hrv, hap]

/-- C7 witness: a dry validation-only run on the passing environment. -/
theorem C7_validation_only_mode_witness :
    (do_transition envPassing "human-manual-review"
      { validation_only := true }).status = envPassing.status ∧
    ("human-manual-review" ≠ "human-manual-review" →
      (do_transition envPassing "human-manual-review" { validation_only := true }).outcome =
        .ok (false, "--validation-only only applies to human-manual-review transition")) ∧
    ("human-manual-review" = "human-manual-review" →
      get_current_phase envPassing ≠ some "implementing" →
      (do_transition envPassing "human-manual-review" { validation_only := true }).outcome =
        .ok (false, "--validation-only requires implementing phase, currently: "
          ++ pyStrOfOpt (get_current_phase envPassing))) ∧
    (∀ s cs, "human-manual-review" = "human-manual-review" →
      get_current_phase envPassing = some "implementing" →
      run_validations envPassing false = .ok (s, cs) →
      (do_transition envPassing "human-manual-review" { validation_only := true }).outcome =
        .ok (s.all_passed,
          if s.all_passed then "All validations passed: " ++ s.summary_text
          else "Validation failed: " ++ s.summary_text)) :=
  C7_validation_only_mode envPassing "human-manual-review" { validation_only := true } rfl

/-- C4: when the validation pipeline reports a failure (`all_passed = false`),
a `do_transition` into `human-manual-review` returns failure carrying the
aggregate summary text and leaves the status record — in particular
`current_phase` — untouched, whatever approval and commit message were
supplied. -/
theorem C4_validation_gate_authoritative (env : Env) (opts : TransOptions)
    (s : ValidationSummary) (cs : List ExtCall)
    (h1 : get_current_phase env = some "implementing")
    (h2 : run_validations env opts.simplified = .ok (s, cs))
    (h3 : s.all_passed = false) :
    (do_transition env "human-manual-review" opts).status = env.status ∧
    (do_transition env "human-manual-review" opts).outcome =
      .ok (false,
        if opts.validation_only then "Validation failed: " ++ s.summary_text
        else "Pre-review validation failed: " ++ s.summary_text
          ++ "\nFix the issues and try again.") := by
  by_cases hv : opts.validation_only
  · constructor <;> simp [do_transition, hv, h1, h2, h3]
  · have hct : (can_transition (some "implementing") "human-manual-review") = (true, "") := by
      decide
    constructor <;> simp [do_transition, hv, h1, h2, h3, hct]

/-- C4 witness: the failing-lint environment with a valid approval supplied. -/
theorem C4_validation_gate_authoritative_witness :
    (do_transition envLintFails "human-manual-review"
      { approval := some "User said yes, go ahead",
        commit_message := some "fix: adjust lint configuration" }).status
        = envLintFails.status ∧
    (do_transition envLintFails "human-manual-review"
      { approval := some "User said yes, go ahead",
        commit_message := some "fix: adjust lint configuration" }).outcome =
      .ok (false,
        if ({ approval := some "User said yes, go ahead",
              commit_message := some "fix: adjust lint configuration" }
            : TransOptions).validation_only
        then "Validation failed: " ++ summaryLintFails.summary_text
        else "Pre-review validation failed: " ++ summaryLintFails.summary_text
          ++ "\nFix the issues and try again.") :=
  C4_validation_gate_authoritative envLintFails
    { approval := some "User said yes, go ahead",
      commit_message := some "fix: adjust lint configuration" }
    summaryLintFails [⟨.validation, "ruff check", some 300⟩] rfl rfl rfl

/-- C1 counterexample: in phase `implementing`, transitioning to
`human-manual-review` with all three validation commands passing and no
approval does return failure (approval required), but the status record is
NOT left entirely unchanged — the call has written validation keys. -/
theorem C1_counterexample :
    (do_transition envPassing "human-manual-review" {}).outcome =
      .ok (false, approvalMissingMsg "human-manual-review") ∧
    (do_transition envPassing "human-manual-review" {}).status ≠ envPassing.status :=
  ⟨rfl, by decide⟩

/-- C1 (amended): in phase `implementing`, a transition to
`human-manual-review` with passing validations and no approval fails with
the approval-required message and does not commit the phase — every key
other than `validation_passed`, `validation_summary` and
`last_validation_at` (in particular `current_phase` and every phase
timestamp) is unchanged — but those three validation keys are written by the
failed call. -/
theorem C1_missing_approval_rejected (env : Env) (opts : TransOptions)
    (s : ValidationSummary) (cs : List ExtCall)
    (h0 : opts.validation_only = false)
    (h1 : get_current_phase env = some "implementing")
    (h2 : opts.approval = none)
    (h3 : run_validations env opts.simplified = .ok (s, cs))
    (h4 : s.all_passed = true) :
    (do_transition env "human-manual-review" opts).outcome =
      .ok (false, approvalMissingMsg "human-manual-review") ∧
    (do_transition env "human-manual-review" opts).status =
      update_validation_status env.status env.now s ∧
    (∀ k, k ≠ "validation_passed" → k ≠ "validation_summary" →
      k ≠ "last_validation_at" →
      statusLookup (do_transition env "human-manual-review" opts).status k
        = statusLookup env.status k) := by
  have hct : (can_transition (some "implementing") "human-manual-review") = (true, "") := by
    decide
  have happ : validate_approval none opts.commit_message "human-manual-review"
      = (false, approvalMissingMsg "human-manual-review") := rfl
  have hdo : do_transition env "human-manual-review" opts =
      { status := update_validation_status env.status env.now s, calls := cs
        outcome := .ok (false, approvalMissingMsg "human-manual-review") } := by
    simp [do_transition, do_transition_commit, h0, h1, h2, h3, h4, hct, happ,
      PHASES_REQUIRING_APPROVAL]
  refine ⟨by rw [hdo], by rw [hdo], ?_⟩
  intro k hk1 hk2 hk3
  rw [hdo]
  exact statusLookup_update_validation_status env.status env.now s k hk1 hk2 hk3

/-- C1 witness: the passing environment with no approval supplied. -/
theorem C1_missing_approval_rejected_witness :
    (do_transition envPassing "human-manual-review" {}).outcome =
      .ok (false, approvalMissingMsg "human-manual-review") ∧
    (do_transition envPassing "human-manual-review" {}).status =
      update_validation_status envPassing.status envPassing.now summaryPassing ∧
    (∀ k, k ≠ "validation_passed" → k ≠ "validation_summary" →
      k ≠ "last_validation_at" →
      statusLookup (do_transition envPassing "human-manual-review" {}).status k
        = statusLookup envPassing.status k) :=
  C1_missing_approval_rejected envPassing {} summaryPassing callsPassing
    rfl rfl rfl rfl rfl

/-- The approval gate rejects whenever either field is missing or shorter
than its 10-character minimum. -/
theorem validate_approval_fails (approval commit_message : Option String)
    (phase : String)
    (h : strOptLen approval < MIN_APPROVAL_LENGTH ∨
      strOptLen commit_message < MIN_COMMIT_MESSAGE_LENGTH) :
    (validate_approval approval commit_message phase).1 = false := by
  unfold validate_approval
  by_cases ha : strOptTruthy approval
  · by_cases hla : strOptLen approval < MIN_APPROVAL_LENGTH
    · simp [ha, hla]
    · by_cases hc : strOptTruthy commit_message
      · have hlc : strOptLen commit_message < MIN_COMMIT_MESSAGE_LENGTH := by
          rcases h with h | h
          · exact absurd h hla
          · exact h
        simp [ha, hla, hc, hlc]
      · simp [ha, hla, hc]
  · simp [ha]

/-- C6 counterexample: a 6-character approval with a valid commit message is
rejected, but the failure is not "before any state change" — the failed call
has already written the validation keys into the status record. -/
theorem C6_counterexample :
    (do_transition envPassing "human-manual-review"
      { approval := some "yes ok",
        commit_message := some "feat: a long enough commit message" }).outcome =
      .ok (false, approvalTooShortMsg) ∧
    (do_transition envPassing "human-manual-review"
      { approval := some "yes ok",
        commit_message := some "feat: a long enough commit message" }).status
      ≠ envPassing.status :=
  ⟨rfl, by decide⟩

/-- C6 (amended): an approval or commit message that is missing or shorter
than 10 characters always fails the approval gate (each field checked
independently of the other's validity), and the resulting `do_transition`
into `human-manual-review` fails with the gate's message and does not commit
the phase: every key other than the three validation-result keys — in
particular `current_phase`, the phase timestamps, the approval and the
commit-message keys — is unchanged; the validation-result keys, however,
have already been written when the gate rejects. -/
theorem C6_approval_gate_rejects_short (env : Env) (opts : TransOptions)
    (s : ValidationSummary) (cs : List ExtCall)
    (h0 : opts.validation_only = false)
    (h1 : get_current_phase env = some "implementing")
    (h2 : strOptLen opts.approval < MIN_APPROVAL_LENGTH ∨
      strOptLen opts.commit_message < MIN_COMMIT_MESSAGE_LENGTH)
    (h3 : run_validations env opts.simplified = .ok (s, cs))
    (h4 : s.all_passed = true) :
    (validate_approval opts.approval opts.commit_message "human-manual-review").1
      = false ∧
    (do_transition env "human-manual-review" opts).outcome =
      .ok (false,
        (validate_approval opts.approval opts.commit_message "human-manual-review").2) ∧
    (do_transition env "human-manual-review" opts).status =
      update_validation_status env.status env.now s ∧
    (∀ k, k ≠ "validation_passed" → k ≠ "validation_summary" →
      k ≠ "last_validation_at" →
      statusLookup (do_transition env "human-manual-review" opts).status k
        = statusLookup env.status k) := by
  have happ := validate_approval_fails opts.approval opts.commit_message
    "human-manual-review" h2
  have hct : (can_transition (some "implementing") "human-manual-review") = (true, "") := by
    decide
  have hdo : do_transition env "human-manual-review" opts =
      { status := update_validation_status env.status env.now s, calls := cs
        outcome := .ok (false,
          (validate_approval opts.approval opts.commit_message "human-manual-review").2) } := by
    simp [do_transition, do_transition_commit, h0, h1, h3, h4, hct, happ,
      PHASES_REQUIRING_APPROVAL]
  refine ⟨happ, by rw [hdo], by rw [hdo], ?_⟩
  intro k hk1 hk2 hk3
  rw [hdo]
  exact statusLookup_update_validation_status env.status env.now s k hk1 hk2 hk3

/-- C6 witness: the short-approval call on the passing environment. -/
theorem C6_approval_gate_rejects_short_witness :
    (validate_approval (some "yes ok") (some "feat: a long enough commit message")
      "human-manual-review").1 = false ∧
    (do_transition envPassing "human-manual-review"
      { approval := some "yes ok",
        commit_message := some "feat: a long enough commit message" }).outcome =
      .ok (false,
        (validate_approval (some "yes ok") (some "feat: a long enough commit message")
          "human-manual-review").2) ∧
    (do_transition envPassing "human-manual-review"
      { approval := some "yes ok",
        commit_message := some "feat: a long enough commit message" }).status =
      update_validation_status envPassing.status envPassing.now summaryPassing ∧
    (∀ k, k ≠ "validation_passed" → k ≠ "validation_summary" →
      k ≠ "last_validation_at" →
      statusLookup (do_transition envPassing "human-manual-review"
        { approval := some "yes ok",
          commit_message := some "feat: a long enough commit message" }).status k
        = statusLookup envPassing.status k) :=
  C6_approval_gate_rejects_short envPassing
    { approval := some "yes ok",
      commit_message := some "feat: a long enough commit message" }
    summaryPassing callsPassing rfl rfl (Or.inl (by decide)) rfl rfl

/-- Past the validation gate, `do_transition` only ever returns `(bool,
message)` — the approval gate, the phase script and the commit never
raise. -/
theorem do_transition_commit_isOk (env : Env) (toPhase : String) (opts : TransOptions)
    (status1 : Option KVMap) (vcalls : List ExtCall) :
    ∃ b m, (do_transition_commit env toPhase opts status1 vcalls).outcome = .ok (b, m) := by
  rcases ho : (do_transition_commit env toPhase opts status1 vcalls).outcome with e | ⟨b, m⟩
  · exfalso
    by_cases ha : (if toPhase ∈ PHASES_REQUIRING_APPROVAL then
        validate_approval opts.approval opts.commit_message toPhase
      else (true, "")).1 = true
    · by_cases hs : (run_phase_script env toPhase opts.simplified opts.linted opts.tested).1.1 <;>
        simp [do_transition_commit, ha, hs] at ho
    · simp [do_transition_commit, ha] at ho
  · exact ⟨b, m, rfl⟩

/-- C2 counterexample: with `[validation] timeout = "drei"` in the project
configuration, a transition from `implementing` to `human-manual-review`
raises `ValueError` out of `do_transition` instead of returning a `(false,
reason)` result. -/
theorem C2_counterexample :
    (do_transition envBadTimeout "human-manual-review" {}).outcome =
      .error (pyIntErrorMsg "drei") := rfl

/-- C2 (amended): whenever the configured validation timeout is a
well-formed integer (file reads being modelled as total), `do_transition`
returns a `(success, message)` pair for every target phase and option
combination; only a malformed timeout value escapes as an exception. -/
theorem C2_no_raise_with_wellformed_timeout (env : Env) (toPhase : String)
    (opts : TransOptions) (t : Int)
    (h : parsePyInt (kvGetD env.vconfig "timeout" (toString DEFAULT_VALIDATION_TIMEOUT))
      = some t) :
    ∃ b m, (do_transition env toPhase opts).outcome = .ok (b, m) := by
  rcases ho : (do_transition env toPhase opts).outcome with e | ⟨b, m⟩
  · exfalso
    obtain ⟨p, hp⟩ := run_validations_isOk env opts.simplified t h
    rcases p with ⟨s, cs⟩
    by_cases hv : opts.validation_only
    · by_cases hto : toPhase = "human-manual-review"
      · subst hto
        by_cases hc : get_current_phase env = some "implementing"
        · by_cases hap : s.all_passed <;> simp [do_transition, hv, hc, hp, hap] at ho
        · simp [do_transition, hv, hc] at ho
      · simp [do_transition, hv, hto] at ho
    · by_cases hct : (can_transition (get_current_phase env) toPhase).1
      · by_cases hto : toPhase = "human-manual-review"
        · subst hto
          by_cases hap : s.all_passed
          · obtain ⟨b2, m2, hbm⟩ := do_transition_commit_isOk env "human-manual-review" opts
              (update_validation_status env.status env.now s) cs
            simp [do_transition, hv, hct, hp, hap, hbm] at ho
          · simp [do_transition, hv, hct, hp, hap] at ho
        · obtain ⟨b2, m2, hbm⟩ := do_transition_commit_isOk env toPhase opts env.status []
          simp [do_transition, hv, hct, hto, hbm] at ho
      · simp [do_transition, hv, hct] at ho
  · exact ⟨b, m, rfl⟩

/-- C2 witness: the passing environment with its default 300-second
timeout. -/
theorem C2_no_raise_with_wellformed_timeout_witness :
    ∃ b m, (do_transition envPassing "human-manual-review" {}).outcome = .ok (b, m) :=
  C2_no_raise_with_wellformed_timeout envPassing "human-manual-review" {} 300 rfl

/-- Every call the phase script stage starts carries no timeout. -/
theorem mem_run_phase_script_calls (env : Env) (ph : String) (sf lf tf : Bool)
    (c : ExtCall) (h : c ∈ (run_phase_script env ph sf lf tf).2) :
    c.kind = .phaseScript ∧ c.timeoutSec = none := by
  simp only [run_phase_script] at h
  split at h
  · simp at h
  · split at h
    · simp at h
    · iterate 5 (all_goals (try split at h))
      all_goals (simp at h; subst h; exact ⟨rfl, rfl⟩)

/-- Every call one hook execution starts carries its timeout argument. -/
theorem mem_run_lifecycle_hook_calls (env : Env) (hp : String) (t : Int)
    (c : ExtCall) (h : c ∈ (run_lifecycle_hook env hp t).2) :
    c.kind = .hook ∧ c.timeoutSec = some t := by
  simp only [run_lifecycle_hook] at h
  split at h
  · simp at h
  · split at h <;> (try split at h) <;> (simp at h; subst h; exact ⟨rfl, rfl⟩)

/-- Every call the hook stage starts carries the default 60-second timeout. -/
theorem mem_run_phase_hooks_calls (env : Env) (ph : String)
    (c : ExtCall) (h : c ∈ (run_phase_hooks env ph).2) :
    c.kind = .hook ∧ c.timeoutSec = some 60 := by
  simp only [run_phase_hooks, List.mem_flatMap] at h
  obtain ⟨hp, _, hc⟩ := h
  exact mem_run_lifecycle_hook_calls env hp 60 c hc

/-- Every call `run_validations` starts carries the parsed configured
timeout. -/
theorem mem_run_validations_calls (env : Env) (simplified : Bool)
    (s : ValidationSummary) (cs : List ExtCall) (c : ExtCall)
    (h : run_validations env simplified = .ok (s, cs)) (hc : c ∈ cs) :
    c.kind = .validation ∧
    ∃ t, parsePyInt (kvGetD env.vconfig "timeout" (toString DEFAULT_VALIDATION_TIMEOUT))
      = some t ∧ c.timeoutSec = some t := by
  rcases ht : parsePyInt (kvGetD env.vconfig "timeout" (toString DEFAULT_VALIDATION_TIMEOUT))
    with _ | t
  · simp only [run_validations, ht] at h
    exact Except.noConfusion h
  · simp only [run_validations, ht] at h
    obtain ⟨-, hcs⟩ := Prod.mk.injEq .. ▸ (Except.ok.injEq .. ▸ h)
    subst hcs
    obtain ⟨p, -, hp⟩ := List.mem_map.mp hc
    subst hp
    exact ⟨rfl, t, rfl, rfl⟩

/-- The commit stage only adds phase-script and hook calls to the trace. -/
theorem mem_do_transition_commit_calls (env : Env) (toPhase : String)
    (opts : TransOptions) (status1 : Option KVMap) (vcalls : List ExtCall)
    (c : ExtCall) (h : c ∈ (do_transition_commit env toPhase opts status1 vcalls).calls) :
    c ∈ vcalls ∨
    c ∈ (run_phase_script env toPhase opts.simplified opts.linted opts.tested).2 ∨
    c ∈ (run_phase_hooks env toPhase).2 := by
  by_cases ha : (if toPhase ∈ PHASES_REQUIRING_APPROVAL then
      validate_approval opts.approval opts.commit_message toPhase
    else (true, "")).1 = true
  · by_cases hs : (run_phase_script env toPhase opts.simplified opts.linted opts.tested).1.1
      = true <;>
      · simp [do_transition_commit, ha, hs] at h
        tauto
  · simp [do_transition_commit, ha] at h
    tauto

/-- C5 counterexample: the configured setup script for the transition
`created → initialized` is run as an external command with NO timeout
(`subprocess.run(cmd, shell=True, cwd=root)` passes no `timeout=`), against
the claim that every external command runs under an explicit timeout. -/
theorem C5_counterexample :
    (⟨.phaseScript, "./setup.sh", none⟩ : ExtCall)
      ∈ (do_transition envScript "initialized" {}).calls ∧
    (⟨.phaseScript, "./setup.sh", none⟩ : ExtCall).timeoutSec = none :=
  ⟨by decide, rfl⟩

/-- C5 (amended): every validation command is started under the configured
timeout (default 300 seconds) and every hook under the default 60-second
timeout, but the phase-bound script is started with no timeout at all. -/
theorem C5_external_call_timeouts (env : Env) (toPhase : String)
    (opts : TransOptions) (c : ExtCall)
    (h : c ∈ (do_transition env toPhase opts).calls) :
    (c.kind = .validation →
      ∃ t, parsePyInt (kvGetD env.vconfig "timeout" (toString DEFAULT_VALIDATION_TIMEOUT))
        = some t ∧ c.timeoutSec = some t) ∧
    (c.kind = .hook → c.timeoutSec = some 60) ∧
    (c.kind = .phaseScript → c.timeoutSec = none) := by
  have fromVal : ∀ s cs, run_validations env opts.simplified = .ok (s, cs) → c ∈ cs →
      (c.kind = .validation →
        ∃ t, parsePyInt (kvGetD env.vconfig "timeout" (toString DEFAULT_VALIDATION_TIMEOUT))
          = some t ∧ c.timeoutSec = some t) ∧
      (c.kind = .hook → c.timeoutSec = some 60) ∧
      (c.kind = .phaseScript → c.timeoutSec = none) := by
    intro s cs hok hmem
    obtain ⟨hk, t, hpt, hts⟩ := mem_run_validations_calls env opts.simplified s cs c hok hmem
    exact ⟨fun _ => ⟨t, hpt, hts⟩,
      fun hh => absurd (hk.symm.trans hh) (by simp),
      fun hh => absurd (hk.symm.trans hh) (by simp)⟩
  have fromScript : c ∈ (run_phase_script env toPhase opts.simplified opts.linted opts.tested).2 →
      (c.kind = .validation →
        ∃ t, parsePyInt (kvGetD env.vconfig "timeout" (toString DEFAULT_VALIDATION_TIMEOUT))
          = some t ∧ c.timeoutSec = some t) ∧
      (c.kind = .hook → c.timeoutSec = some 60) ∧
      (c.kind = .phaseScript → c.timeoutSec = none) := by
    intro hmem
    obtain ⟨hk, hts⟩ := mem_run_phase_script_calls env toPhase opts.simplified opts.linted
      opts.tested c hmem
    exact ⟨fun hh => absurd (hk.symm.trans hh) (by simp),
      fun hh => absurd (hk.symm.trans hh) (by simp), fun _ => hts⟩
  have fromHooks : c ∈ (run_phase_hooks env toPhase).2 →
      (c.kind = .validation →
        ∃ t, parsePyInt (kvGetD env.vconfig "timeout" (toString DEFAULT_VALIDATION_TIMEOUT))
          = some t ∧ c.timeoutSec = some t) ∧
      (c.kind = .hook → c.timeoutSec = some 60) ∧
      (c.kind = .phaseScript → c.timeoutSec = none) := by
    intro hmem
    obtain ⟨hk, hts⟩ := mem_run_phase_hooks_calls env toPhase c hmem
    exact ⟨fun hh => absurd (hk.symm.trans hh) (by simp), fun _ => hts,
      fun hh => absurd (hk.symm.trans hh) (by simp)⟩
  by_cases hv : opts.validation_only
  · by_cases hto : toPhase = "human-manual-review"
    · subst hto
      by_cases hc : get_current_phase env = some "implementing"
      · rcases hrv : run_validations env opts.simplified with e | ⟨s, cs⟩
        · simp [do_transition, hv, hc, hrv] at h
        · by_cases hap : s.all_passed <;>
            · simp [do_transition, hv, hc, hrv, hap] at h
              exact fromVal s cs hrv h
      · simp [do_transition, hv, hc] at h
    · simp [do_transition, hv, hto] at h
  · by_cases hct : (can_transition (get_current_phase env) toPhase).1
    · by_cases hto : toPhase = "human-manual-review"
      · subst hto
        rcases hrv : run_validations env opts.simplified with e | ⟨s, cs⟩
        · simp [do_transition, hv, hct, hrv] at h
        · by_cases hap : s.all_passed
          · have h2 : c ∈ (do_transition_commit env "human-manual-review" opts
                (update_validation_status env.status env.now s) cs).calls := by
              simpa [do_transition, hv, hct, hrv, hap] using h
            rcases mem_do_transition_commit_calls env "human-manual-review" opts
              (update_validation_status env.status env.now s) cs c h2 with hm | hm | hm
            · exact fromVal s cs hrv hm
            · exact fromScript hm
            · exact fromHooks hm
          · simp [do_transition, hv, hct, hrv, hap] at h
            exact fromVal s cs hrv h
      · have h2 : c ∈ (do_transition_commit env toPhase opts env.status []).calls := by
          simpa [do_transition, hv, hct, hto] using h
        rcases mem_do_transition_commit_calls env toPhase opts env.status [] c h2
          with hm | hm | hm
        · simp at hm
        · exact fromScript hm
        · exact fromHooks hm
    · simp [do_transition, hv, hct] at h

/-- C5 witness: the phase-script call of `created → initialized` on the
script environment. -/
theorem C5_external_call_timeouts_witness :
    ((⟨.phaseScript, "./setup.sh", none⟩ : ExtCall).kind = .validation →
      ∃ t, parsePyInt (kvGetD envScript.vconfig "timeout"
          (toString DEFAULT_VALIDATION_TIMEOUT)) = some t ∧
        (⟨.phaseScript, "./setup.sh", none⟩ : ExtCall).timeoutSec = some t) ∧
    ((⟨.phaseScript, "./setup.sh", none⟩ : ExtCall).kind = .hook →
      (⟨.phaseScript, "./setup.sh", none⟩ : ExtCall).timeoutSec = some 60) ∧
    ((⟨.phaseScript, "./setup.sh", none⟩ : ExtCall).kind = .phaseScript →
      (⟨.phaseScript, "./setup.sh", none⟩ : ExtCall).timeoutSec = none) :=
  C5_external_call_timeouts envScript "initialized" {}
    ⟨.phaseScript, "./setup.sh", none⟩ (by decide)

/-- A `can_transition` that allows the move names a known phase. -/
theorem can_transition_true_mem (from_phase : Option String) (to_phase : String)
    (h : (can_transition from_phase to_phase).1 = true) : to_phase ∈ PHASES := by
  by_contra hmem
  simp [can_transition, hmem] at h

/-- C3: hooks are advisory and non-blocking.  `run_lifecycle_hook` reports
success with a message for every hook world (script missing, any exit code,
timeout, missing `uv`, any exception); the outcome and the resulting status
record of `do_transition` do not depend on the hook world at all; and a
normal-mode transition that reports success has committed `current_phase` to
the target phase. -/
theorem C3_hooks_advisory_nonblocking (env : Env) (he : String → Bool)
    (hr : String → HookOutcome) (toPhase : String) (opts : TransOptions)
    (hp : String) (t : Int) :
    (run_lifecycle_hook (envSetHooks env he hr) hp t).1.1 = true ∧
    (do_transition (envSetHooks env he hr) toPhase opts).outcome
      = (do_transition env toPhase opts).outcome ∧
    (do_transition (envSetHooks env he hr) toPhase opts).status
      = (do_transition env toPhase opts).status ∧
    (opts.validation_only = false →
      (do_transition env toPhase opts).outcome = .ok (true, transitionedMsg toPhase) →
      statusLookup (do_transition env toPhase opts).status "current_phase"
        = some toPhase) := by
  have h1 : ∀ sfl, run_validations (envSetHooks env he hr) sfl = run_validations env sfl :=
    fun _ => rfl
  have h2 : get_current_phase (envSetHooks env he hr) = get_current_phase env := rfl
  have h3 : run_phase_script (envSetHooks env he hr) toPhase opts.simplified opts.linted
      opts.tested = run_phase_script env toPhase opts.simplified opts.linted opts.tested := rfl
  have h4 : (envSetHooks env he hr).status = env.status := rfl
  have h5 : (envSetHooks env he hr).now = env.now := rfl
  have hookTrue : (run_lifecycle_hook (envSetHooks env he hr) hp t).1.1 = true := by
    simp only [run_lifecycle_hook]
    split
    · rfl
    · split <;> (try split) <;> rfl
  have hcommit : ∀ status1 vcalls,
      (do_transition_commit (envSetHooks env he hr) toPhase opts status1 vcalls).outcome
        = (do_transition_commit env toPhase opts status1 vcalls).outcome ∧
      (do_transition_commit (envSetHooks env he hr) toPhase opts status1 vcalls).status
        = (do_transition_commit env toPhase opts status1 vcalls).status := by
    intro status1 vcalls
    by_cases ha : (if toPhase ∈ PHASES_REQUIRING_APPROVAL then
        validate_approval opts.approval opts.commit_message toPhase
      else (true, "")).1 = true <;>
      by_cases hs : (run_phase_script env toPhase opts.simplified opts.linted
        opts.tested).1.1 = true <;>
      · constructor <;> simp [do_transition_commit, ha, hs, h3, h5]
  have hmain : (do_transition (envSetHooks env he hr) toPhase opts).outcome
      = (do_transition env toPhase opts).outcome ∧
      (do_transition (envSetHooks env he hr) toPhase opts).status
      = (do_transition env toPhase opts).status := by
    by_cases hv : opts.validation_only
    · by_cases hto : toPhase = "human-manual-review"
      · subst hto
        by_cases hc : get_current_phase env = some "implementing"
        · rcases hrv : run_validations env opts.simplified with e | ⟨s, cs⟩
          · constructor <;> simp [do_transition, hv, hc, hrv, h1, h2, h4]
          · by_cases hap : s.all_passed <;>
              · constructor <;> simp [do_transition, hv, hc, hrv, hap, h1, h2, h4]
        · constructor <;> simp [do_transition, hv, hc, h1, h2, h4]
      · constructor <;> simp [do_transition, hv, hto, h4]
    · by_cases hct : (can_transition (get_current_phase env) toPhase).1 = true
      · by_cases hto : toPhase = "human-manual-review"
        · subst hto
          rcases hrv : run_validations env opts.simplified with e | ⟨s, cs⟩
          · constructor <;> simp [do_transition, hv, hct, hrv, h1, h2, h4]
          · by_cases hap : s.all_passed
            · have hcc := hcommit (update_validation_status env.status env.now s) cs
              constructor <;>
                · simp only [do_transition, hv, hct, hrv, hap, h1, h2, h4, h5,
                    Bool.false_eq_true, if_false, ite_true, ite_false, if_true]
                  simp [hv, hct, hap, hcc.1, hcc.2]
            · constructor <;> simp [do_transition, hv, hct, hrv, hap, h1, h2, h4]
        · have hcc := hcommit env.status []
          constructor <;>
            · simp only [do_transition, hv, hct, hto, h1, h2, h4]
              simp [hv, hct, hto, hcc.1, hcc.2]
      · constructor <;> simp [do_transition, hv, hct, h1, h2, h4]
  refine ⟨hookTrue, hmain.1, hmain.2, ?_⟩
  intro hv hsucc
  by_cases hct : (can_transition (get_current_phase env) toPhase).1 = true
  · have htoP := can_transition_true_mem (get_current_phase env) toPhase hct
    have hkeys : toPhase ++ "_at" ≠ "current_phase" ∧
        toPhase ++ "_approval" ≠ "current_phase" := by
      simp only [PHASES, List.mem_cons, List.not_mem_nil, or_false] at htoP
      rcases htoP with rfl | rfl | rfl | rfl | rfl | rfl | rfl <;>
        exact ⟨by decide, by decide⟩
    have commitLookup : ∀ (status1 : Option KVMap) (vcalls : List ExtCall),
        statusLookup (do_transition_commit env toPhase opts status1 vcalls).status
          "current_phase" = some toPhase ∨
        (do_transition_commit env toPhase opts status1 vcalls).outcome
          ≠ .ok (true, transitionedMsg toPhase) := by
      intro status1 vcalls
      by_cases ha : (if toPhase ∈ PHASES_REQUIRING_APPROVAL then
          validate_approval opts.approval opts.commit_message toPhase
        else (true, "")).1 = true
      · by_cases hs : (run_phase_script env toPhase opts.simplified opts.linted
          opts.tested).1.1 = true
        · left
          have tailNe : ∀ p ∈ ((toPhase ++ "_at", env.now) ::
              ((if strOptTruthy opts.approval = true then
                  [(toPhase ++ "_approval", opts.approval.getD "")] else []) ++
                (if strOptTruthy opts.commit_message = true then
                  [("commit_message", opts.commit_message.getD "")] else []))),
              p.1 ≠ "current_phase" := by
            intro p hp2
            simp only [List.mem_cons, List.mem_append] at hp2
            rcases hp2 with rfl | hp2 | hp2
            · exact hkeys.1
            · revert hp2
              split
              · intro hp2
                simp only [List.mem_singleton] at hp2
                subst hp2
                exact hkeys.2
              · intro hp2
                simp at hp2
            · revert hp2
              split
              · intro hp2
                simp only [List.mem_singleton] at hp2
                subst hp2
                show ("commit_message" : String) ≠ "current_phase"
                decide
              · intro hp2
                simp at hp2
          cases status1 with
          | none =>
            simp [do_transition_commit, ha, hs, statusLookup, kvLookup_cons,
              List.cons_append, List.nil_append]
          | some kvs =>
            simp only [do_transition_commit, ha, hs, statusLookup, List.cons_append,
              List.nil_append, Bool.not_eq_true, if_false, ite_true, ite_false,
              Bool.true_eq_false, reduceIte]
            exact kvLookup_kvUpdateMany_first kvs "current_phase" toPhase _ tailNe
        · right
          simp [do_transition_commit, ha, hs]
      · right
        simp [do_transition_commit, ha]
    by_cases hto : toPhase = "human-manual-review"
    · subst hto
      rcases hrv : run_validations env opts.simplified with e | ⟨s, cs⟩
      · simp [do_transition, hv, hct, hrv] at hsucc
      · by_cases hap : s.all_passed
        · have hred : do_transition env "human-manual-review" opts =
              do_transition_commit env "human-manual-review" opts
                (update_validation_status env.status env.now s) cs := by
            simp [do_transition, hv, hct, hrv, hap]
          rw [hred] at hsucc ⊢
          rcases commitLookup (update_validation_status env.status env.now s) cs with
            hl | hrr
          · exact hl
          · exact absurd hsucc hrr
        · simp [do_transition, hv, hct, hrv, hap] at hsucc
    · have hred : do_transition env toPhase opts =
          do_transition_commit env toPhase opts env.status [] := by
        simp [do_transition, hv, hct, hto]
      rw [hred] at hsucc ⊢
      rcases commitLookup env.status [] with hl | hrr
      · exact hl
      · exact absurd hsucc hrr
  · simp [do_transition, hv, hct] at hsucc

end WorktreeFlow
